import Mathlib

/-!
Verification of the annotation-service repository (Go) against its
natural-language specification.

The development shallowly embeds the code of `parser/geo-g2.go`,
`parser/geo-ip.go`, `search` (SearchList) and `handler/handler.go`.
IP addresses are byte lists (`List Nat`, each byte < 256), mirroring Go's
`net.IP` (`[]byte`).  Machine-dependent details that no claim depends on
(float64 rounding of latitude/longitude, the 64-bit range limit of
`strconv.Atoi`) are abstracted by exact rational / unbounded-integer
arithmetic; everything else follows the Go source line by line.

Functions of the Go standard library `net` package used by the source
(`net.ParseCIDR`, `net.ParseIP`, `net.CIDRMask`, `net.IP.Mask`) are embedded
following the Go 1.9-era standard library (the repository's vintage).
-/

namespace AnnotationService

/-- Decidable equality for `Except`, used to evaluate the embedded
functions on concrete inputs. -/
instance {ε α : Type _} [DecidableEq ε] [DecidableEq α] :
    DecidableEq (Except ε α) := fun x y =>
  match x, y with
  | Except.ok a, Except.ok b =>
    if h : a = b then isTrue (by rw [h])
    else isFalse (by intro hh; injection hh; contradiction)
  | Except.error a, Except.error b =>
    if h : a = b then isTrue (by rw [h])
    else isFalse (by intro hh; injection hh; contradiction)
  | Except.ok _, Except.error _ => isFalse (by intro hh; cases hh)
  | Except.error _, Except.ok _ => isFalse (by intro hh; cases hh)

/-! ## Byte-string comparison (Go `bytes.Compare`)

`bytes.Compare` compares two byte slices lexicographically; a strict prefix
is smaller.  Used directly by `search.SearchList` and (via the repository's
`lessThan` helper) by the range-index builder. -/

def compareBytes : List Nat → List Nat → Ordering
  | [], [] => Ordering.eq
  | [], _ :: _ => Ordering.lt
  | _ :: _, [] => Ordering.gt
  | a :: as, b :: bs =>
    if a < b then Ordering.lt
    else if b < a then Ordering.gt
    else compareBytes as bs

/-- Modelled from the spec: the repository's `lessThan` helper (called by
`LoadIPListGLite2` but defined in a parser file not present under `src/`)
is "unsigned big-endian byte-wise comparison", i.e. `bytes.Compare(a,b) < 0`
as used throughout the `search` package. -/
def lessThan (a b : List Nat) : Bool :=
  compareBytes a b == Ordering.lt

/-- Little-endian increment with carry (helper for `plusOne`). -/
def incBytesLE : List Nat → List Nat
  | [] => []
  | b :: bs => if b == 255 then 0 :: incBytesLE bs else (b + 1) :: bs

/-- Little-endian decrement with borrow (helper for `minusOne`). -/
def decBytesLE : List Nat → List Nat
  | [] => []
  | b :: bs => if b == 0 then 255 :: decBytesLE bs else (b - 1) :: bs

/-- Modelled from the spec: the repository's `PlusOne` (not under `src/`) is
"closed node's `high` + 1": big-endian increment of an IP address. -/
def plusOne (a : List Nat) : List Nat :=
  (incBytesLE a.reverse).reverse

/-- Modelled from the spec: the repository's `minusOne` (not under `src/`) is
"new node's `low` − 1": big-endian decrement of an IP address. -/
def minusOne (a : List Nat) : List Nat :=
  (decBytesLE a.reverse).reverse

/-! ## Go standard library `net`: address parsing

Embeds `parseIPv4`, `parseIPv6`, `ParseIP`, `CIDRMask`, `IP.Mask` and
`ParseCIDR` from the Go standard library used by the source.  Go's decimal /
hex accumulators (`dtoi` / `xtoi`) stop with `ok=false` once the value
reaches a large cutoff; since every caller additionally bounds the value
(255, 0xFFFF or the prefix width), accumulating exactly and comparing
against the caller's bound accepts and rejects the same strings. -/

def isDigitChar (c : Char) : Bool := '0' ≤ c && c ≤ '9'

def takeDigits (cs : List Char) : List Char × List Char :=
  (cs.takeWhile isDigitChar, cs.dropWhile isDigitChar)

def natOfDigits (ds : List Char) : Nat :=
  ds.foldl (fun a c => a * 10 + (c.toNat - '0'.toNat)) 0

def isHexChar (c : Char) : Bool :=
  ('0' ≤ c && c ≤ '9') || ('a' ≤ c && c ≤ 'f') || ('A' ≤ c && c ≤ 'F')

def takeHexDigits (cs : List Char) : List Char × List Char :=
  (cs.takeWhile isHexChar, cs.dropWhile isHexChar)

def hexVal (c : Char) : Nat :=
  if '0' ≤ c && c ≤ '9' then c.toNat - '0'.toNat
  else if 'a' ≤ c && c ≤ 'f' then c.toNat - 'a'.toNat + 10
  else c.toNat - 'A'.toNat + 10

def natOfHexDigits (ds : List Char) : Nat :=
  ds.foldl (fun a c => a * 16 + hexVal c) 0

/-- The 12-byte lead of an IPv4-in-IPv6 address (Go `v4InV6Prefix`):
`net.IPv4` represents IPv4 addresses as 16-byte slices with this lead. -/
def v4MappedLead : List Nat :=
  [0, 0, 0, 0, 0, 0, 0, 0, 0, 0, 255, 255]

/-- One octet group of Go's `parseIPv4` loop; `k` octets remain, `acc` holds
the octets parsed so far (the `i > 0` dot requirement is `acc ≠ []`). -/
def parseIPv4Aux : Nat → List Char → List Nat → Option (List Nat)
  | 0, cs, acc => if cs.isEmpty then some (v4MappedLead ++ acc) else none
  | Nat.succ k, cs, acc =>
    match (if acc.isEmpty then some cs else
            match cs with
            | '.' :: r => some r
            | _ => none) with
    | none => none
    | some cs2 =>
      let p := takeDigits cs2
      if p.1.isEmpty then none
      else
        let n := natOfDigits p.1
        if n > 255 then none
        else parseIPv4Aux k p.2 (acc ++ [n])

/-- Go `net.parseIPv4`: four dot-separated decimal octets ≤ 255, returned in
the 16-byte form produced by `net.IPv4`. -/
def parseIPv4 (s : String) : Option (List Nat) :=
  parseIPv4Aux 4 s.toList []

/-- End of Go's `parseIPv6`: the remaining input must be exhausted; fewer
than 16 bytes requires an ellipsis (expanded with zeros at its position),
exactly 16 bytes forbids one. -/
def finishIPv6 (cs : List Char) (acc : List Nat) (ell : Option Nat) :
    Option (List Nat) :=
  if !cs.isEmpty then none
  else if acc.length < 16 then
    match ell with
    | none => none
    | some e => some (acc.take e ++ List.replicate (16 - acc.length) 0 ++ acc.drop e)
  else
    match ell with
    | none => some acc
    | some _ => none

/-- Main loop of Go's `parseIPv6`.  `k` counts the remaining 2-byte groups
(the loop runs while `i < 16` and `i` grows by 2), `acc` the bytes parsed so
far (`i = acc.length`), `ell` the ellipsis position if one was seen. -/
def parseIPv6Aux : Nat → List Char → List Nat → Option Nat → Option (List Nat)
  | 0, cs, acc, ell => finishIPv6 cs acc ell
  | Nat.succ k, cs, acc, ell =>
    let p := takeHexDigits cs
    if p.1.isEmpty then none
    else
      let n := natOfHexDigits p.1
      if n > 65535 then none
      else
        match p.2 with
        | '.' :: _ =>
          -- trailing embedded IPv4 address ("Not the right place" / "Not
          -- enough room" checks, then parseIPv4 on the remaining input)
          if ell.isNone && acc.length != 12 then none
          else if acc.length + 4 > 16 then none
          else
            match parseIPv4 (String.mk cs) with
            | none => none
            | some ip4 => finishIPv6 [] (acc ++ ip4.drop 12) ell
        | [] => finishIPv6 [] (acc ++ [n / 256, n % 256]) ell
        | ':' :: [] => none
        | ':' :: ':' :: r2 =>
          if ell.isSome then none
          else if r2.isEmpty then
            finishIPv6 [] (acc ++ [n / 256, n % 256]) (some (acc.length + 2))
          else
            parseIPv6Aux k r2 (acc ++ [n / 256, n % 256]) (some (acc.length + 2))
        | ':' :: r1 => parseIPv6Aux k r1 (acc ++ [n / 256, n % 256]) ell
        | _ => none

/-- Go `net.parseIPv6` (zone-less form, as called by `ParseCIDR`/`ParseIP`). -/
def parseIPv6 (s : String) : Option (List Nat) :=
  match s.toList with
  | ':' :: ':' :: r =>
    if r.isEmpty then some (List.replicate 16 0)
    else parseIPv6Aux 8 r [] (some 0)
  | cs => parseIPv6Aux 8 cs [] none

/-- Go `net.ParseIP`: scan for the first `'.'` or `':'` to pick the family. -/
def parseIPLoop : List Char → String → Option (List Nat)
  | [], _ => none
  | '.' :: _, s => parseIPv4 s
  | ':' :: _, s => parseIPv6 s
  | _ :: r, s => parseIPLoop r s

def ParseIP (s : String) : Option (List Nat) :=
  parseIPLoop s.toList s

/-- Go `net.CIDRMask ones bits`: `bits/8` bytes, `ones` leading one-bits. -/
def cidrMask (ones bits : Nat) : List Nat :=
  (List.range (bits / 8)).map (fun i =>
    if 8 * (i + 1) ≤ ones then 255
    else if 8 * i ≤ ones then 255 ^^^ (255 >>> (ones - 8 * i))
    else 0)

/-- Go `net.IP.Mask`: byte-wise AND after aligning a 4-byte mask with the
trailing 4 bytes of a 16-byte IPv4-in-IPv6 address (and symmetrically for a
16-byte mask whose lead is all ones).  Returns `none` where Go returns `nil`
(length mismatch). -/
def ipApplyMask (ip mask : List Nat) : Option (List Nat) :=
  let mask2 := if mask.length == 16 && ip.length == 4 &&
                  (mask.take 12).all (fun b => b == 255)
               then mask.drop 12 else mask
  let ip2 := if mask2.length == 4 && ip.length == 16 &&
                ip.take 12 == v4MappedLead
             then ip.drop 12 else ip
  if ip2.length != mask2.length then none
  else some (List.zipWith (fun a b => a &&& b) ip2 mask2)

/-- Split at the first `'/'` (Go `byteIndex(s, '/')`). -/
def splitFirstSlash : List Char → Option (List Char × List Char)
  | [] => none
  | '/' :: r => some ([], r)
  | c :: r => (splitFirstSlash r).map (fun p => (c :: p.1, p.2))

/-- Go `net.ParseCIDR`, reduced to the pair `(ip, mask)` that the source's
`rangeCIDR` consumes: the address literal exactly as parsed (host bits are
NOT zeroed; the masked network `ip.Mask(m)` is a separate value, see
`ipApplyMask`) and the `CIDRMask` of the prefix length. -/
def parseCIDR (s : String) : Option (List Nat × List Nat) :=
  match splitFirstSlash s.toList with
  | none => none
  | some (addr, maskCs) =>
    let addrS := String.mk addr
    let q := match parseIPv4 addrS with
             | some ip => (some ip, 4)
             | none => (parseIPv6 addrS, 16)
    match q.1 with
    | none => none
    | some ip =>
      let p := takeDigits maskCs
      if p.1.isEmpty || !p.2.isEmpty then none
      else
        let n := natOfDigits p.1
        if n > 8 * q.2 then none
        else some (ip, cidrMask n (8 * q.2))

/-! ## `parser` package: data model (`geo-ip.go`) -/

/-- `parser.IPNode` (geo-ip.go:19).  Latitude/longitude are exact rationals
standing for the parsed decimal literals (float64 rounding is irrelevant to
every claim). -/
structure IPNode where
  IPAddressLow : List Nat
  IPAddressHigh : List Nat
  LocationIndex : Int
  PostalCode : String
  Latitude : ℚ
  Longitude : ℚ
  deriving DecidableEq, Repr, Inhabited

/-- `parser.LocationNode` (geo-ip.go:29). -/
structure LocationNode where
  GeonameID : Int
  ContinentCode : String
  CountryCode : String
  CountryName : String
  MetroCode : Int
  CityName : String
  deriving DecidableEq, Repr, Inhabited

/-- `parser.GeoDataset` (geo-ip.go:39). -/
structure GeoDataset where
  IP4Nodes : List IPNode
  IP6Nodes : List IPNode
  LocationNodes : List LocationNode
  deriving DecidableEq, Repr

/-- Go `map[int]int`, as built by `LoadLocListGLite2`: newest binding first,
lookup takes the first match, so insertion overwrites earlier bindings. -/
abbrev IdMap := List (Int × Int)

def idMapFind (idMap : IdMap) (k : Int) : Option Int :=
  (idMap.find? (fun p => p.1 == k)).map (fun p => p.2)

/-! ## `parser` package: field helpers (`geo-ip.go`) -/

/-- `strconv.Atoi` (= `ParseInt(s, 10, 0)`): optional sign, one or more
decimal digits, nothing else.  The 64-bit range limit is abstracted away
(no claim involves values of that size). -/
def parseAtoi (s : String) : Option Int :=
  match s.toList with
  | [] => none
  | cs =>
    let q := match cs with
             | '+' :: r => ((1 : Int), r)
             | '-' :: r => (-1, r)
             | r => (1, r)
    let p := takeDigits q.2
    if p.1.isEmpty || !p.2.isEmpty then none
    else some (q.1 * (natOfDigits p.1 : Int))

/-- `strconv.ParseFloat(s, 64)` on the decimal forms occurring in the feed:
optional sign, digits with optional fraction, optional decimal exponent.
The value is kept as an exact rational (see `IPNode`). -/
def parseFloatQ (s : String) : Option ℚ :=
  match s.toList with
  | [] => none
  | cs =>
    let q := match cs with
             | '+' :: r => ((1 : ℚ), r)
             | '-' :: r => (-1, r)
             | r => (1, r)
    let ip := takeDigits q.2
    let fp := match ip.2 with
              | '.' :: r => takeDigits r
              | r => ([], r)
    if ip.1.isEmpty && fp.1.isEmpty then none
    else
      let mant : ℚ := q.1 * (natOfDigits (ip.1 ++ fp.1) : ℚ) / (10 : ℚ) ^ fp.1.length
      match fp.2 with
      | [] => some mant
      | e :: r =>
        if e == 'e' || e == 'E' then
          let eq := match r with
                    | '+' :: r2 => ((1 : Int), r2)
                    | '-' :: r2 => (-1, r2)
                    | r2 => (1, r2)
          let ep := takeDigits eq.2
          if ep.1.isEmpty || !ep.2.isEmpty then none
          else some (mant * (10 : ℚ) ^ (eq.1 * (natOfDigits ep.1 : Int)))
        else none

/-- `parser.stringToFloat` (geo-ip.go:118): parse failure on a non-empty
string is fatal; an empty string is tolerated and yields the zero value. -/
def stringToFloat (str field : String) : Except String ℚ :=
  match parseFloatQ str with
  | some flt => Except.ok flt
  | none =>
    if str.length > 0 then
      Except.error ("Corrupted Data: " ++ field ++ " should be an int")
    else Except.ok 0

/-- `parser.checkAllCaps` (geo-ip.go:130): the string must fully match the
regular expression `^[0-9A-Z]*$` — digits are accepted alongside uppercase
letters. -/
def checkAllCaps (str field : String) : Except String String :=
  if str.toList.all (fun c => ('0' ≤ c && c ≤ '9') || ('A' ≤ c && c ≤ 'Z')) then
    Except.ok str
  else Except.error ("Corrupted Data: " ++ field ++ " should be all caps")

/-- `checkCaps` as called by `LoadLocListGLite2` (geo-g2.go:114,118): the
validation the claims identify with `checkAllCaps` (geo-ip.go:130). -/
def checkCaps : String → String → Except String String :=
  checkAllCaps

/-- `parser.lookupGeoId` (geo-ip.go:105): returns `(0, err)` both when the
string is not a number and when the id is absent from the map. -/
def lookupGeoId (gnid : String) (idMap : IdMap) : Except String Int :=
  match parseAtoi gnid with
  | none => Except.error "Corrupted Data: geonameID should be a number"
  | some geonameId =>
    match idMapFind idMap geonameId with
    | none => Except.error "Corrupted Data: geonameId not found"
    | some loadIndex => Except.ok loadIndex

/-- The column-count check used by `LoadIPListGLite2` (geo-g2.go:163);
`checkNumColumns` resolves to the verification of `checkColumnLength`
(geo-ip.go:48): exact field count or `Corrupted Data`. -/
def checkNumColumns (record : List String) (size : Nat) : Except String Unit :=
  if record.length != size then
    Except.error "Corrupted Data: wrong number of columns"
  else Except.ok ()

/-- The regular expression check `^[^0-9]*$` applied to the country name
(geo-g2.go:122): no digit anywhere in the string. -/
def noDigits (s : String) : Bool :=
  s.toList.all (fun c => !isDigitChar c)

/-! ## `parser.LoadLocListGLite2` (geo-g2.go:79)

The CSV reader is abstracted as a list of records, each a list of string
fields (the spec excludes CSV tokenization); `FieldsPerRecord` becomes the
per-record length-13 check. -/

/-- The geoname-id field (geo-g2.go:102-108): `strconv.Atoi` failure is
fatal only for a non-empty field; an empty field yields the zero value. -/
def parseGeonameID (s : String) : Except String Int :=
  match parseAtoi s with
  | some g => Except.ok g
  | none =>
    if s.length > 0 then
      Except.error "Corrupted Data: GeonameID should be a number"
    else Except.ok 0

/-- The metro-code field (geo-g2.go:126-132), same tolerance for empty. -/
def parseMetroCode (s : String) : Except String Int :=
  match parseAtoi s with
  | some m => Except.ok m
  | none =>
    if s.length > 0 then
      Except.error "Corrupted Data: metrocode should be a number"
    else Except.ok 0

/-- Field validation and `LocationNode` construction for one location
record (geo-g2.go:101-133), in source order: column count, geoname id,
continent code, country code, country name, metro code, city name. -/
def parseLocRecord (record : List String) : Except String LocationNode :=
  if record.length != 13 then
    Except.error "Corrupted Data: wrong number of columns"
  else
    match parseGeonameID (record.getD 0 "") with
    | Except.error e => Except.error e
    | Except.ok gid =>
      match checkCaps (record.getD 2 "") "Continent code" with
      | Except.error e => Except.error e
      | Except.ok cont =>
        match checkCaps (record.getD 4 "") "Country code" with
        | Except.error e => Except.error e
        | Except.ok ctry =>
          if !noDigits (record.getD 5 "") then
            Except.error "Corrupted Data: country name should be letters"
          else
            match parseMetroCode (record.getD 11 "") with
            | Except.error e => Except.error e
            | Except.ok metro =>
              Except.ok ⟨gid, cont, ctry, record.getD 5 "", metro, record.getD 10 ""⟩

/-- The record loop of `LoadLocListGLite2`: append the node and bind
`idMap[geonameID] = len(list) - 1` (the index of the appended node). -/
def loadLocRecords : List (List String) → List LocationNode → IdMap →
    Except String (List LocationNode × IdMap)
  | [], list, idMap => Except.ok (list, idMap)
  | record :: rest, list, idMap =>
    match parseLocRecord record with
    | Except.error e => Except.error e
    | Except.ok lNode =>
      loadLocRecords rest (list ++ [lNode]) ((lNode.GeonameID, (list.length : Int)) :: idMap)

/-- `parser.LoadLocListGLite2` (geo-g2.go:79): "Empty input data" exactly
when the very first read hits EOF — i.e. the input has no records at all;
otherwise the first record (the header) is discarded and the rest are
processed. -/
def LoadLocListGLite2 (records : List (List String)) :
    Except String (List LocationNode × IdMap) :=
  match records with
  | [] => Except.error "Empty input data"
  | _header :: rest => loadLocRecords rest [] []

/-! ## `parser.rangeCIDR` (geo-g2.go:56) -/

/-- Body of the `for x := range ip` loop of `rangeCIDR` (geo-g2.go:65-74):
byte `x` of the high bound.  Go's `^mask[i]` on a byte is `255 ^^^ mask[i]`. -/
def highByte (ip mask : List Nat) (x : Nat) : Nat :=
  if mask.length == 4 then
    if x < 12 then ip.getD x 0 ||| 0
    else ip.getD x 0 ||| (255 ^^^ mask.getD (x - 12) 0)
  else ip.getD x 0 ||| (255 ^^^ mask.getD x 0)

/-- `parser.rangeCIDR` (geo-g2.go:56; identical to `RangeCIDR`,
geo-ip.go:75).  `lowIp` is a copy of the address exactly as parsed; the
high bound ORs every byte of the (always 16-byte) parsed address with the
complement of the mask byte — a 4-byte mask is aligned to the trailing 4
bytes (`mask[x-12]`) and the leading 12 bytes are OR'd with 0. -/
def rangeCIDR (cidr : String) : Except String (List Nat × List Nat) :=
  match parseCIDR cidr with
  | none => Except.error "Invalid CIDR IP range"
  | some (ip, mask) =>
    let lowIp := ip
    let high := (List.range ip.length).map (highByte ip mask)
    Except.ok (lowIp, high)

/-! ## `parser.LoadIPListGLite2` (geo-g2.go:144) -/

/-- Construction of `newNode` for one block record (geo-g2.go:163-191), in
source order: column count, CIDR bounds, geoname lookup with backup (both
failing is NOT fatal and leaves the index at `lookupGeoId`'s zero return
value), postal code, latitude, longitude. -/
def parseIPRecord (idMap : IdMap) (record : List String) : Except String IPNode :=
  match checkNumColumns record 10 with
  | Except.error e => Except.error e
  | Except.ok _ =>
    match rangeCIDR (record.getD 0 "") with
    | Except.error e => Except.error e
    | Except.ok (lowIp, highIp) =>
      let index : Int :=
        match lookupGeoId (record.getD 1 "") idMap with
        | Except.ok i => i
        | Except.error _ =>
          match lookupGeoId (record.getD 2 "") idMap with
          | Except.ok backupIndex => backupIndex
          | Except.error _ => 0
      match stringToFloat (record.getD 7 "") "Latitude" with
      | Except.error e => Except.error e
      | Except.ok lat =>
        match stringToFloat (record.getD 8 "") "Longitude" with
        | Except.error e => Except.error e
        | Except.ok lon =>
          Except.ok ⟨lowIp, highIp, index, record.getD 6 "", lat, lon⟩

/-- Replace the last element of the output list (`list[len(list)-1]`,
geo-g2.go:225); the call sites guarantee the list is non-empty. -/
def updateLast (l : List IPNode) (f : IPNode → IPNode) : List IPNode :=
  match l with
  | [] => []
  | [x] => [f x]
  | x :: xs => x :: updateLast xs f

/-- The pop-and-close loop (geo-g2.go:196-218).  The stack is kept top
first.  Each popped node keeps the ORIGINAL bounds it was pushed with (Go
appends struct copies).  When the stack empties after a pop the loop just
stops; otherwise `peek` (a copy of the new top) is emitted with its low
raised past the popped node's high, and — if the new node still starts
inside `peek` — its high cut below the new node's low, ending the loop.
(The source's inner `len(stack) > 0` test is always true at that point.) -/
def closeLoop (newLow : List Nat) : List IPNode → List IPNode →
    List IPNode × List IPNode
  | [], list => ([], list)
  | _pop :: [], list => ([], list)
  | pop :: peek :: rest, list =>
    if lessThan newLow peek.IPAddressHigh then
      (peek :: rest,
       list ++ [{ peek with IPAddressLow := plusOne pop.IPAddressHigh,
                            IPAddressHigh := minusOne newLow }])
    else
      closeLoop newLow (peek :: rest)
        (list ++ [{ peek with IPAddressLow := plusOne pop.IPAddressHigh }])

/-- The nesting-resolution step for one new node (geo-g2.go:193-231): if the
new node lies beyond the open stack top, run the pop-and-close loop; if it
nests inside the top, retroactively cut the high of the LAST APPENDED list
entry (the stack copies keep their original bounds).  The new node is then
pushed and appended with exactly the bounds `rangeCIDR` produced — the
assignments after the appends (geo-g2.go:229-230) mutate a by-value copy
that is overwritten on the next iteration, so no maximum-address sentinel
ever reaches the list. -/
def processNode (newNode : IPNode) (stack list : List IPNode) :
    List IPNode × List IPNode :=
  let sl :=
    match stack with
    | [] => (stack, list)
    | top :: _ =>
      if lessThan top.IPAddressHigh newNode.IPAddressLow then
        closeLoop newNode.IPAddressLow stack list
      else
        (stack, updateLast list
          (fun n => { n with IPAddressHigh := minusOne newNode.IPAddressLow }))
  (newNode :: sl.1, sl.2 ++ [newNode])

/-- The record loop of `LoadIPListGLite2`. -/
def loadIPRecords (idMap : IdMap) : List (List String) → List IPNode →
    List IPNode → Except String (List IPNode)
  | [], _stack, list => Except.ok list
  | record :: rest, stack, list =>
    match parseIPRecord idMap record with
    | Except.error e => Except.error e
    | Except.ok newNode =>
      let p := processNode newNode stack list
      loadIPRecords idMap rest p.1 p.2

/-- `parser.LoadIPListGLite2` (geo-g2.go:144): "Empty input data" exactly
when the input has no records at all; otherwise the header is discarded and
the block records are folded through the nesting resolver.  Note that the
stack is NOT flushed when the input ends: still-open nodes contribute no
further output. -/
def LoadIPListGLite2 (records : List (List String)) (idMap : IdMap) :
    Except String (List IPNode) :=
  match records with
  | [] => Except.error "Empty input data"
  | _header :: rest => loadIPRecords idMap rest [] []

/-! ## `search` package: `SearchList` (src/unnamed/part_001) -/

/-- The scan loop of `search.SearchList`: `acc` models the pair
(`inRange`, `list[lastNodeIndex]`) — the last node seen whose inclusive
`[low, high]` contains `userIP` under `bytes.Compare`. -/
def searchLoop (userIP : List Nat) : List IPNode → Option IPNode →
    Except String IPNode
  | [], none => Except.error "Node not found\n"
  | [], some last => Except.ok last
  | node :: rest, acc =>
    if compareBytes userIP node.IPAddressLow != Ordering.lt &&
       compareBytes userIP node.IPAddressHigh != Ordering.gt then
      searchLoop userIP rest (some node)
    else
      match acc with
      | some last =>
        if compareBytes userIP node.IPAddressLow == Ordering.lt then
          Except.ok last
        else searchLoop userIP rest (some last)
      | none => searchLoop userIP rest none

/-- `search.SearchList` (src/unnamed/part_001:14): parse the query with
`net.ParseIP`, then scan. -/
def SearchList (list : List IPNode) (ipLookUp : String) : Except String IPNode :=
  match ParseIP ipLookUp with
  | none => Except.error "Invalid search IP"
  | some userIP => searchLoop userIP list none

/-! ## `handler` package (handler.go) -/

/-- Modelled from the spec: `schema.RequestData` (external `etl/schema`
package) as used by the handler — the query IP string and its family tag
(4 or 6) assigned by `ValidateAndParse`. -/
structure RequestData where
  IP : String
  IPFormat : Nat
  deriving DecidableEq, Repr

/-- Modelled from the spec: the metadata record produced for a lookup
(`schema.MetaData`/`GeolocationIP`, external `etl/schema` package), §6:
continent code, country code, country name, postal code, metro code, city,
latitude, longitude. -/
structure MetaData where
  ContinentCode : String
  CountryCode : String
  CountryName : String
  PostalCode : String
  MetroCode : Int
  CityName : String
  Latitude : ℚ
  Longitude : ℚ
  deriving DecidableEq, Repr

/-- The zero value of `parser.LocationNode` used when `LocationIndex < 0`. -/
def emptyLocationNode : LocationNode :=
  ⟨0, "", "", "", 0, ""⟩

/-- `handler.ConvertIPNodeToMetaData` (handler.go:194): when
`LocationIndex >= 0` the location slice is indexed WITHOUT an upper bounds
check — `none` models the Go index-out-of-range panic. -/
def ConvertIPNodeToMetaData (ipNode : IPNode) (locationNodes : List LocationNode) :
    Option MetaData :=
  if 0 ≤ ipNode.LocationIndex then
    match locationNodes.get? ipNode.LocationIndex.toNat with
    | none => none
    | some locNode =>
      some ⟨locNode.ContinentCode, locNode.CountryCode, locNode.CountryName,
            ipNode.PostalCode, locNode.MetroCode, locNode.CityName,
            ipNode.Latitude, ipNode.Longitude⟩
  else
    some ⟨emptyLocationNode.ContinentCode, emptyLocationNode.CountryCode,
          emptyLocationNode.CountryName, ipNode.PostalCode,
          emptyLocationNode.MetroCode, emptyLocationNode.CityName,
          ipNode.Latitude, ipNode.Longitude⟩

/-- `handler.GetMetadataForSingleIP` (handler.go:164).  The shared
`CurrentGeoDataset` pointer is the explicit argument `cur` (`none` = the
reference is still nil).  The result is `some r` where `r : Option MetaData`
is the returned pointer (`none` = the Go function returns `nil`); the outer
`none` models the index panic inside `ConvertIPNodeToMetaData`.  A nil
dataset and a failed search BOTH return nil. -/
def GetMetadataForSingleIP (cur : Option GeoDataset) (request : RequestData) :
    Option (Option MetaData) :=
  match cur with
  | none => some none
  | some ds =>
    let res :=
      if request.IPFormat == 4 then SearchList ds.IP4Nodes request.IP
      else if request.IPFormat == 6 then SearchList ds.IP6Nodes request.IP
      else Except.error "Unknown IP Format!"
    match res with
    | Except.error _ => some none
    | Except.ok node => (ConvertIPNodeToMetaData node ds.LocationNodes).map some

/-! # Lemmas

## `compareBytes`: order-theoretic facts -/
theorem compareBytes_eq_iff (a b : List Nat) : compareBytes a b = Ordering.eq ↔ a = b := by
  induction a generalizing b with
  | nil => cases b <;> simp [compareBytes]
  | cons x xs ih =>
    cases b with
    | nil => simp [compareBytes]
    | cons y ys =>
      simp only [compareBytes]
      split_ifs with h1 h2
      · simp; omega
      · simp; omega
      · have hxy : x = y := by omega
        subst hxy
        simp [ih]

theorem compareBytes_cons_lt_iff (x y : Nat) (xs ys : List Nat) :
    compareBytes (x :: xs) (y :: ys) = Ordering.lt ↔
      x < y ∨ (x = y ∧ compareBytes xs ys = Ordering.lt) := by
  simp only [compareBytes]
  split_ifs with h1 h2
  · simp [h1]
  · simp; omega
  · have hxy : x = y := by omega
    simp [hxy]

theorem compareBytes_lt_trans {a b c : List Nat}
    (hab : compareBytes a b = Ordering.lt) (hbc : compareBytes b c = Ordering.lt) :
    compareBytes a c = Ordering.lt := by
  induction a generalizing b c with
  | nil =>
    cases b with
    | nil => simp [compareBytes] at hab
    | cons y ys =>
      cases c with
      | nil => simp [compareBytes] at hbc
      | cons z zs => simp [compareBytes]
  | cons x xs ih =>
    cases b with
    | nil => simp [compareBytes] at hab
    | cons y ys =>
      cases c with
      | nil => simp [compareBytes] at hbc
      | cons z zs =>
        rw [compareBytes_cons_lt_iff] at hab hbc ⊢
        rcases hab with h | ⟨hxy, hab⟩
        · rcases hbc with h2 | ⟨hyz, _⟩
          · exact Or.inl (by omega)
          · exact Or.inl (by omega)
        · rcases hbc with h2 | ⟨hyz, hbc⟩
          · exact Or.inl (by omega)
          · exact Or.inr ⟨by omega, ih hab hbc⟩

theorem compareBytes_lt_of_lt_of_ne_gt {a b c : List Nat}
    (hab : compareBytes a b = Ordering.lt) (hbc : compareBytes b c ≠ Ordering.gt) :
    compareBytes a c = Ordering.lt := by
  rcases ho : compareBytes b c with h | h | h
  · exact compareBytes_lt_trans hab ho
  · rw [compareBytes_eq_iff] at ho; rw [← ho]; exact hab
  · exact absurd ho hbc

theorem compareBytes_lt_of_ne_gt_of_lt {a b c : List Nat}
    (hab : compareBytes a b ≠ Ordering.gt) (hbc : compareBytes b c = Ordering.lt) :
    compareBytes a c = Ordering.lt := by
  rcases ho : compareBytes a b with h | h | h
  · exact compareBytes_lt_trans ho hbc
  · rw [compareBytes_eq_iff] at ho; rw [ho]; exact hbc
  · exact absurd ho hab

theorem compareBytes_ne_gt_of_forall2 {a b : List Nat}
    (h : List.Forall₂ (fun x y => x ≤ y) a b) : compareBytes a b ≠ Ordering.gt := by
  induction h with
  | nil => simp [compareBytes]
  | @cons x y xs ys hxy htl ih =>
    have hxy2 : x ≤ y := hxy
    simp only [compareBytes]
    split_ifs with h1 h2
    · simp
    · omega
    · exact ih

/-! ## Lengths of parsed addresses and masks -/
theorem nat_le_lor_self (a b : Nat) : a ≤ a ||| b := by
  have h : a &&& (a ||| b) = a := by
    apply Nat.eq_of_testBit_eq
    intro i
    rw [Nat.testBit_land, Nat.testBit_lor]
    cases a.testBit i <;> simp
  calc a = a &&& (a ||| b) := h.symm
    _ ≤ a ||| b := Nat.and_le_right

theorem parseIPv4Aux_length : ∀ (k : Nat) (cs : List Char) (acc out : List Nat),
    parseIPv4Aux k cs acc = some out → out.length = 12 + acc.length + k := by
  intro k
  induction k with
  | zero =>
    intro cs acc out h
    simp only [parseIPv4Aux] at h
    split_ifs at h
    injection h with h
    subst h
    simp [v4MappedLead]
    omega
  | succ k ih =>
    intro cs acc out h
    simp only [parseIPv4Aux] at h
    split at h
    · exact absurd h (by simp)
    · split_ifs at h
      have := ih _ _ _ h
      simp at this
      omega

theorem parseIPv4_length (s : String) (ip : List Nat) (h : parseIPv4 s = some ip) :
    ip.length = 16 := by
  have := parseIPv4Aux_length 4 s.toList [] ip h
  simpa using this

theorem finishIPv6_length (cs : List Char) (acc : List Nat) (ell : Option Nat)
    (out : List Nat) (h : finishIPv6 cs acc ell = some out)
    (he : ∀ e, ell = some e → e ≤ acc.length) (hle : acc.length ≤ 16) :
    out.length = 16 := by
  simp only [finishIPv6] at h
  split_ifs at h with h1 h2
  · split at h
    · exact absurd h (by simp)
    · rename_i e
      injection h with h
      subst h
      have hee := he e rfl
      simp [List.length_take, List.length_drop]
      omega
  · split at h
    · injection h with h
      subst h
      omega
    · exact absurd h (by simp)

theorem parseIPv6Aux_length : ∀ (k : Nat) (cs : List Char) (acc : List Nat)
    (ell : Option Nat) (out : List Nat),
    parseIPv6Aux k cs acc ell = some out →
    (∀ e, ell = some e → e ≤ acc.length) →
    acc.length + 2 * k = 16 →
    out.length = 16 := by
  intro k
  induction k with
  | zero =>
    intro cs acc ell out h he hlen
    exact finishIPv6_length cs acc ell out h he (by omega)
  | succ k ih =>
    intro cs acc ell out h he hlen
    simp only [parseIPv6Aux] at h
    split at h
    · exact absurd h (by simp)
    split at h
    · exact absurd h (by simp)
    split at h
    · -- embedded IPv4
      split at h
      · exact absurd h (by simp)
      split at h
      · exact absurd h (by simp)
      split at h
      · exact absurd h (by simp)
      · rename_i ip4 hip4
        have h16 : ip4.length = 16 := parseIPv4_length _ _ hip4
        rename_i hp2 _
        apply finishIPv6_length _ _ _ _ h
        · intro e hee
          have := he e hee
          simp
          omega
        · simp [h16]
          omega
    · -- end of string after group
      apply finishIPv6_length _ _ _ _ h
      · intro e hee
        have := he e hee
        simp
        omega
      · simp
        omega
    · exact absurd h (by simp)
    · -- "::" seen
      split at h
      · exact absurd h (by simp)
      split at h
      · apply finishIPv6_length _ _ _ _ h
        · intro e hee
          injection hee with hee
          simp [← hee]
        · simp
          omega
      · exact ih _ _ _ _ h (by intro e hee; injection hee with hee; simp [← hee]) (by simp; omega)
    · -- single colon, continue
      exact ih _ _ _ _ h (by intro e hee; have := he e hee; simp; omega) (by simp; omega)
    · exact absurd h (by simp)

theorem parseIPv6_length (s : String) (ip : List Nat) (h : parseIPv6 s = some ip) :
    ip.length = 16 := by
  simp only [parseIPv6] at h
  split at h
  · split_ifs at h
    · injection h with h; subst h; simp
    · exact parseIPv6Aux_length 8 _ [] (some 0) ip h (by intro e he; injection he with he; omega) (by simp)
  · exact parseIPv6Aux_length 8 _ [] none ip h (by intro e he; cases he) (by simp)

theorem cidrMask_length (ones bits : Nat) : (cidrMask ones bits).length = bits / 8 := by
  simp [cidrMask]

theorem parseCIDR_props (s : String) (ip mask : List Nat)
    (h : parseCIDR s = some (ip, mask)) :
    ip.length = 16 ∧ (mask.length = 4 ∨ mask.length = 16) := by
  simp only [parseCIDR] at h
  split at h
  · exact absurd h (by simp)
  · rename_i addr maskCs heq
    rcases hv4 : parseIPv4 (String.mk addr) with _ | ip4
    · rcases hv6 : parseIPv6 (String.mk addr) with _ | ip6
      · simp only [hv4, hv6] at h
        exact absurd h (by simp)
      · simp only [hv4, hv6] at h
        split_ifs at h with h1 h2
        injection h with h
        injection h with hip hmask
        subst hip
        refine ⟨parseIPv6_length _ _ hv6, Or.inr ?_⟩
        rw [← hmask, cidrMask_length]
    · simp only [hv4] at h
      split_ifs at h with h1 h2
      injection h with h
      injection h with hip hmask
      subst hip
      refine ⟨parseIPv4_length _ _ hv4, Or.inl ?_⟩
      rw [← hmask, cidrMask_length]

/-! ## rangeCIDR facts -/

theorem getD_le_highByte (ip mask : List Nat) (x : Nat) :
    ip.getD x 0 ≤ highByte ip mask x := by
  unfold highByte
  split_ifs <;> exact nat_le_lor_self _ _

theorem rangeCIDR_of_parse (s : String) (ip mask : List Nat)
    (h : parseCIDR s = some (ip, mask)) :
    rangeCIDR s = Except.ok (ip, (List.range ip.length).map (highByte ip mask)) := by
  simp [rangeCIDR, h]

theorem rangeCIDR_ok_parse (s : String) (low high : List Nat)
    (h : rangeCIDR s = Except.ok (low, high)) :
    ∃ mask, parseCIDR s = some (low, mask) ∧
      high = (List.range low.length).map (highByte low mask) := by
  simp only [rangeCIDR] at h
  split at h
  · exact absurd h (by simp)
  · rename_i ip mask heq
    injection h with h
    injection h with hip hhigh
    subst hip
    exact ⟨mask, heq, hhigh.symm⟩

theorem rangeCIDR_wf (s : String) (low high : List Nat)
    (h : rangeCIDR s = Except.ok (low, high)) :
    compareBytes low high ≠ Ordering.gt := by
  obtain ⟨mask, _hp, hhigh⟩ := rangeCIDR_ok_parse s low high h
  apply compareBytes_ne_gt_of_forall2
  rw [hhigh, List.forall₂_iff_get]
  constructor
  · simp
  · intro i h1 h2
    have hi : i < (List.range low.length).length := by simpa using h1
    rw [List.get_eq_getElem, List.get_eq_getElem, List.getElem_map, List.getElem_range]
    rw [← List.getD_eq_getElem low 0 h1]
    exact getD_le_highByte low mask i

theorem rangeCIDR_lengths (s : String) (low high : List Nat)
    (h : rangeCIDR s = Except.ok (low, high)) :
    low.length = 16 ∧ high.length = 16 := by
  obtain ⟨mask, hp, hhigh⟩ := rangeCIDR_ok_parse s low high h
  have h16 := (parseCIDR_props s low mask hp).1
  rw [hhigh]
  simp [h16]

/-! # Claims

## C8: rangeCIDR output well-formedness -/
theorem take12_high (ip mask : List Nat) (h16 : ip.length = 16) (hm : mask.length = 4) :
    ((List.range ip.length).map (highByte ip mask)).take 12 = ip.take 12 := by
  apply List.ext_getElem
  · simp [h16]
  · intro j hj1 hj2
    have hjlen : j < 12 := by simp [h16] at hj1; omega
    rw [List.getElem_take, List.getElem_take, List.getElem_map, List.getElem_range]
    unfold highByte
    rw [if_pos (by simp [hm]), if_pos hjlen]
    rw [Nat.or_zero]
    exact List.getD_eq_getElem ip 0 (by omega)

/-- C8: for every valid CIDR string accepted by `rangeCIDR`, the returned
pair satisfies `low ≤ high` under byte-wise unsigned comparison, and `low`
and `high` both have the byte width of the parsed input address (16 bytes);
for an IPv4 CIDR (4-byte mask) the leading 12 family-specific bytes of
`high` coincide with those of the input address. -/
theorem c8_range_wf (s : String) (ip mask low high : List Nat)
    (hp : parseCIDR s = some (ip, mask))
    (hr : rangeCIDR s = Except.ok (low, high)) :
    low = ip ∧ low.length = ip.length ∧ high.length = ip.length ∧
      ip.length = 16 ∧ compareBytes low high ≠ Ordering.gt ∧
      (mask.length = 4 → high.take 12 = ip.take 12) := by
  have hr2 := rangeCIDR_of_parse s ip mask hp
  rw [hr] at hr2
  injection hr2 with hr2
  injection hr2 with hlow hhigh
  have h16 := (parseCIDR_props s ip mask hp).1
  subst hlow
  refine ⟨rfl, rfl, ?_, h16, rangeCIDR_wf s low high hr, ?_⟩
  · rw [hhigh]; simp
  · intro hm
    rw [hhigh]
    exact take12_high low mask h16 hm

theorem c8_range_wf_witness :
    parseCIDR "10.0.0.1/8" =
      some ([0,0,0,0,0,0,0,0,0,0,255,255,10,0,0,1], [255,0,0,0]) ∧
    rangeCIDR "10.0.0.1/8" =
      Except.ok ([0,0,0,0,0,0,0,0,0,0,255,255,10,0,0,1],
                 [0,0,0,0,0,0,0,0,0,0,255,255,10,255,255,255]) ∧
    ([0,0,0,0,0,0,0,0,0,0,255,255,10,0,0,1] : List Nat) =
      [0,0,0,0,0,0,0,0,0,0,255,255,10,0,0,1] ∧
    ([0,0,0,0,0,0,0,0,0,0,255,255,10,0,0,1] : List Nat).length =
      ([0,0,0,0,0,0,0,0,0,0,255,255,10,0,0,1] : List Nat).length ∧
    ([0,0,0,0,0,0,0,0,0,0,255,255,10,255,255,255] : List Nat).length =
      ([0,0,0,0,0,0,0,0,0,0,255,255,10,0,0,1] : List Nat).length ∧
    ([0,0,0,0,0,0,0,0,0,0,255,255,10,0,0,1] : List Nat).length = 16 ∧
    compareBytes [0,0,0,0,0,0,0,0,0,0,255,255,10,0,0,1]
      [0,0,0,0,0,0,0,0,0,0,255,255,10,255,255,255] ≠ Ordering.gt ∧
    (([255,0,0,0] : List Nat).length = 4 →
      ([0,0,0,0,0,0,0,0,0,0,255,255,10,255,255,255] : List Nat).take 12 =
        ([0,0,0,0,0,0,0,0,0,0,255,255,10,0,0,1] : List Nat).take 12) := by
  refine ⟨by decide, by decide, ?_⟩
  have h := c8_range_wf "10.0.0.1/8"
    [0,0,0,0,0,0,0,0,0,0,255,255,10,0,0,1] [255,0,0,0]
    [0,0,0,0,0,0,0,0,0,0,255,255,10,0,0,1]
    [0,0,0,0,0,0,0,0,0,0,255,255,10,255,255,255]
    (by decide) (by decide)
  exact ⟨h.1, h.2.1, h.2.2.1, h.2.2.2.1, h.2.2.2.2.1, h.2.2.2.2.2⟩

/-! ## C3: rangeCIDR low/high characterization -/
theorem tb255 : ∀ b < 8, Nat.testBit 255 b = true := by decide

theorem high_getD (ip mask : List Nat) (j : Nat) (hj : j < ip.length) :
    ((List.range ip.length).map (highByte ip mask)).getD j 0 = highByte ip mask j := by
  rw [List.getD_eq_getElem _ 0 (by simpa using hj), List.getElem_map, List.getElem_range]

/-- C3 (amended): for every valid CIDR string, `rangeCIDR` returns `low`
equal to the address literal exactly as parsed — host bits are preserved,
NOT zeroed — and `high` equal to that address with every host bit forced
to 1: a 4-byte mask is aligned to the trailing 4 bytes of the 16-byte
representation, the leading 12 bytes are never changed, and within the
mask-covered bytes every bit cleared in the mask is set in `high` while
every bit set in the mask keeps the input address's bit. -/
theorem c3_low_literal_high_hostbits (s : String) (ip mask low high : List Nat)
    (hp : parseCIDR s = some (ip, mask))
    (hr : rangeCIDR s = Except.ok (low, high)) :
    low = ip ∧
    (mask.length = 4 → ∀ j < 12, high.getD j 0 = ip.getD j 0) ∧
    (mask.length = 4 → ∀ j, 12 ≤ j → j < 16 → ∀ b < 8,
      (Nat.testBit (mask.getD (j - 12) 0) b = false →
        Nat.testBit (high.getD j 0) b = true) ∧
      (Nat.testBit (mask.getD (j - 12) 0) b = true →
        Nat.testBit (high.getD j 0) b = Nat.testBit (ip.getD j 0) b)) ∧
    (mask.length = 16 → ∀ j < 16, ∀ b < 8,
      (Nat.testBit (mask.getD j 0) b = false →
        Nat.testBit (high.getD j 0) b = true) ∧
      (Nat.testBit (mask.getD j 0) b = true →
        Nat.testBit (high.getD j 0) b = Nat.testBit (ip.getD j 0) b)) := by
  have hr2 := rangeCIDR_of_parse s ip mask hp
  rw [hr] at hr2
  injection hr2 with hr2
  injection hr2 with hlow hhigh
  have h16 := (parseCIDR_props s ip mask hp).1
  refine ⟨hlow, ?_, ?_, ?_⟩
  · intro hm j hj
    rw [hhigh, high_getD ip mask j (by omega)]
    unfold highByte
    rw [if_pos (by simp [hm]), if_pos hj, Nat.or_zero]
  · intro hm j hj12 hj16 b hb
    rw [hhigh, high_getD ip mask j (by omega)]
    unfold highByte
    rw [if_pos (by simp [hm]), if_neg (by omega)]
    rw [Nat.testBit_lor, Nat.testBit_xor, tb255 b hb]
    cases hmb : Nat.testBit (mask.getD (j - 12) 0) b <;> simp
  · intro hm j hj16 b hb
    rw [hhigh, high_getD ip mask j (by omega)]
    unfold highByte
    rw [if_neg (by simp [hm])]
    rw [Nat.testBit_lor, Nat.testBit_xor, tb255 b hb]
    cases hmb : Nat.testBit (mask.getD j 0) b <;> simp

/-- C3 counterexample: for the valid CIDR string "10.0.0.1/8" (a literal
with host bits set), `rangeCIDR` returns as `low` the literal address
10.0.0.1 itself — which differs from the network address 10.0.0.0
(`ip.Mask(mask)`, host bits zeroed) — refuting "low equal to the network
address (host bits zeroed)". -/
theorem c3_counterexample :
    rangeCIDR "10.0.0.1/8" =
      Except.ok ([0,0,0,0,0,0,0,0,0,0,255,255,10,0,0,1],
                 [0,0,0,0,0,0,0,0,0,0,255,255,10,255,255,255]) ∧
    ipApplyMask [0,0,0,0,0,0,0,0,0,0,255,255,10,0,0,1] [255,0,0,0] =
      some [10,0,0,0] ∧
    ([0,0,0,0,0,0,0,0,0,0,255,255,10,0,0,1] : List Nat) ≠
      v4MappedLead ++ [10,0,0,0] := by
  refine ⟨by decide, by decide, by decide⟩

theorem c3_witness :
    parseCIDR "10.0.0.1/8" =
      some ([0,0,0,0,0,0,0,0,0,0,255,255,10,0,0,1], [255,0,0,0]) ∧
    rangeCIDR "10.0.0.1/8" =
      Except.ok ([0,0,0,0,0,0,0,0,0,0,255,255,10,0,0,1],
                 [0,0,0,0,0,0,0,0,0,0,255,255,10,255,255,255]) ∧
    ([0,0,0,0,0,0,0,0,0,0,255,255,10,0,0,1] : List Nat) =
      [0,0,0,0,0,0,0,0,0,0,255,255,10,0,0,1] ∧
    (([255,0,0,0] : List Nat).length = 4 → ∀ j < 12,
      ([0,0,0,0,0,0,0,0,0,0,255,255,10,255,255,255] : List Nat).getD j 0 =
        ([0,0,0,0,0,0,0,0,0,0,255,255,10,0,0,1] : List Nat).getD j 0) ∧
    (([255,0,0,0] : List Nat).length = 4 → ∀ j, 12 ≤ j → j < 16 → ∀ b < 8,
      (Nat.testBit (([255,0,0,0] : List Nat).getD (j - 12) 0) b = false →
        Nat.testBit (([0,0,0,0,0,0,0,0,0,0,255,255,10,255,255,255] : List Nat).getD j 0) b = true) ∧
      (Nat.testBit (([255,0,0,0] : List Nat).getD (j - 12) 0) b = true →
        Nat.testBit (([0,0,0,0,0,0,0,0,0,0,255,255,10,255,255,255] : List Nat).getD j 0) b =
          Nat.testBit (([0,0,0,0,0,0,0,0,0,0,255,255,10,0,0,1] : List Nat).getD j 0) b)) ∧
    (([255,0,0,0] : List Nat).length = 16 → ∀ j < 16, ∀ b < 8,
      (Nat.testBit (([255,0,0,0] : List Nat).getD j 0) b = false →
        Nat.testBit (([0,0,0,0,0,0,0,0,0,0,255,255,10,255,255,255] : List Nat).getD j 0) b = true) ∧
      (Nat.testBit (([255,0,0,0] : List Nat).getD j 0) b = true →
        Nat.testBit (([0,0,0,0,0,0,0,0,0,0,255,255,10,255,255,255] : List Nat).getD j 0) b =
          Nat.testBit (([0,0,0,0,0,0,0,0,0,0,255,255,10,0,0,1] : List Nat).getD j 0) b)) := by
  refine ⟨by decide, by decide, ?_⟩
  exact c3_low_literal_high_hostbits "10.0.0.1/8"
    [0,0,0,0,0,0,0,0,0,0,255,255,10,0,0,1] [255,0,0,0]
    [0,0,0,0,0,0,0,0,0,0,255,255,10,0,0,1]
    [0,0,0,0,0,0,0,0,0,0,255,255,10,255,255,255]
    (by decide) (by decide)

/-! ## C9: SearchList correctness -/
theorem ordering_bne_iff (a b : Ordering) : (a != b) = true ↔ a ≠ b := by
  cases a <;> cases b <;> simp <;> decide

theorem ordering_beq_iff (a b : Ordering) : (a == b) = true ↔ a = b := by
  cases a <;> cases b <;> decide

theorem compareBytes_gt_iff_lt (a b : List Nat) :
    compareBytes a b = Ordering.gt ↔ compareBytes b a = Ordering.lt := by
  induction a generalizing b with
  | nil => cases b <;> simp [compareBytes]
  | cons x xs ih =>
    cases b with
    | nil => simp [compareBytes]
    | cons y ys =>
      simp only [compareBytes]
      rcases Nat.lt_trichotomy x y with h | h | h
      · rw [if_pos h, if_neg (by omega), if_pos h]
        simp
      · subst h
        rw [if_neg (lt_irrefl x), if_neg (lt_irrefl x), if_neg (lt_irrefl x),
            if_neg (lt_irrefl x)]
        exact ih ys
      · rw [if_neg (by omega), if_pos h, if_pos h]
        simp
    
theorem searchLoop_ok_contains (userIP : List Nat) :
    ∀ (l : List IPNode) (acc : Option IPNode) (node : IPNode),
    (∀ a, acc = some a → compareBytes userIP a.IPAddressLow ≠ Ordering.lt ∧
                         compareBytes userIP a.IPAddressHigh ≠ Ordering.gt) →
    searchLoop userIP l acc = Except.ok node →
    compareBytes userIP node.IPAddressLow ≠ Ordering.lt ∧
    compareBytes userIP node.IPAddressHigh ≠ Ordering.gt := by
  intro l
  induction l with
  | nil =>
    intro acc node hacc h
    cases acc with
    | none => simp [searchLoop] at h
    | some a =>
      simp only [searchLoop] at h
      injection h with h
      subst h
      exact hacc a rfl
  | cons x xs ih =>
    intro acc node hacc h
    cases acc with
    | none =>
      simp only [searchLoop] at h
      split_ifs at h with h1
      · rw [Bool.and_eq_true, ordering_bne_iff, ordering_bne_iff] at h1
        apply ih (some x) node ?_ h
        intro a ha
        injection ha with ha
        subst ha
        exact h1
      · exact ih none node (by intro a ha; cases ha) h
    | some last =>
      simp only [searchLoop] at h
      split_ifs at h with h1 h2
      · rw [Bool.and_eq_true, ordering_bne_iff, ordering_bne_iff] at h1
        apply ih (some x) node ?_ h
        intro a ha
        injection ha with ha
        subst ha
        exact h1
      · injection h with h
        subst h
        exact hacc last rfl
      · exact ih (some last) node hacc h

/-- C9: whenever `SearchList` returns a node (no sortedness or disjointness
assumed of the input list), that node's inclusive `[low, high]` range
contains the parsed query address under byte-wise unsigned comparison; and
`SearchList` fails on every query string that does not parse as an IP
address. -/
theorem c9_search_correct :
    (∀ (list : List IPNode) (q : String) (node : IPNode),
      SearchList list q = Except.ok node →
      ∃ ip, ParseIP q = some ip ∧
        compareBytes node.IPAddressLow ip ≠ Ordering.gt ∧
        compareBytes ip node.IPAddressHigh ≠ Ordering.gt) ∧
    (∀ (list : List IPNode) (q : String),
      ParseIP q = none → SearchList list q = Except.error "Invalid search IP") := by
  constructor
  · intro list q node h
    simp only [SearchList] at h
    split at h
    · exact absurd h (by simp)
    · rename_i userIP hq
      have hc := searchLoop_ok_contains userIP list none node (by intro a ha; cases ha) h
      refine ⟨userIP, hq, ?_, hc.2⟩
      intro hgt
      exact hc.1 ((compareBytes_gt_iff_lt _ _).mp hgt)
  · intro list q h
    simp [SearchList, h]

/-- Concrete range node used to exercise the search theorems. -/
def wSearchNode : IPNode :=
  ⟨v4MappedLead ++ [1,2,3,0], v4MappedLead ++ [1,2,3,255], 5, "", 0, 0⟩

theorem c9_witness :
    SearchList [wSearchNode] "1.2.3.4" = Except.ok wSearchNode ∧
    (∃ ip, ParseIP "1.2.3.4" = some ip ∧
      compareBytes wSearchNode.IPAddressLow ip ≠ Ordering.gt ∧
      compareBytes ip wSearchNode.IPAddressHigh ≠ Ordering.gt) ∧
    ParseIP "not-an-ip" = none ∧
    SearchList [wSearchNode] "not-an-ip" = Except.error "Invalid search IP" := by
  refine ⟨by decide, ?_, by decide, ?_⟩
  · exact c9_search_correct.1 [wSearchNode] "1.2.3.4" wSearchNode (by decide)
  · exact c9_search_correct.2 [wSearchNode] "not-an-ip" (by decide)

/-! ## C10: ConvertIPNodeToMetaData bounds; C5: lookup before publish -/
/-- C10: `ConvertIPNodeToMetaData` indexes the location slice whenever
`LocationIndex ≥ 0` with no upper bounds check, so the out-of-range branch
is unreachable exactly under the precondition `LocationIndex < length`;
with `LocationIndex = 0` and an empty location table the access is out of
bounds (the Go code would panic). -/
theorem c10_convert_bounds :
    (∀ (ipNode : IPNode) (locationNodes : List LocationNode),
      (0 ≤ ipNode.LocationIndex →
        ipNode.LocationIndex < (locationNodes.length : Int)) →
      (ConvertIPNodeToMetaData ipNode locationNodes).isSome = true) ∧
    ConvertIPNodeToMetaData ⟨[], [], 0, "", 0, 0⟩ [] = none := by
  constructor
  · intro ipNode locationNodes hpre
    unfold ConvertIPNodeToMetaData
    split_ifs with h0
    · have hlt := hpre h0
      have hnat : ipNode.LocationIndex.toNat < locationNodes.length := by omega
      rcases hg : locationNodes.get? ipNode.LocationIndex.toNat with _ | locNode
      · rw [List.get?_eq_none] at hg
        omega
      · simp [hg]
    · simp
  · decide

theorem c10_convert_bounds_witness :
    (0 ≤ (⟨[], [], 0, "", 0, 0⟩ : IPNode).LocationIndex →
      (⟨[], [], 0, "", 0, 0⟩ : IPNode).LocationIndex <
        (([⟨0, "AF", "KE", "Kenya", 0, "Nairobi"⟩] : List LocationNode).length : Int)) ∧
    (ConvertIPNodeToMetaData ⟨[], [], 0, "", 0, 0⟩
      [⟨0, "AF", "KE", "Kenya", 0, "Nairobi"⟩]).isSome = true := by
  refine ⟨by decide, ?_⟩
  exact c10_convert_bounds.1 ⟨[], [], 0, "", 0, 0⟩
    [⟨0, "AF", "KE", "Kenya", 0, "Nairobi"⟩] (by decide)

/-- Concrete dataset with one empty IPv4 index: a published dataset in
which no range matches any query. -/
def emptyDataset : GeoDataset := ⟨[], [], []⟩

/-- C5 counterexample: a lookup issued before any dataset is published
(`cur = none`) returns exactly the same value — the nil metadata pointer,
`some none` — as a lookup against a published dataset in which no range
contains the address (`SearchList` NotFound).  The two conditions are NOT
reported distinctly. -/
theorem c5_counterexample :
    GetMetadataForSingleIP none ⟨"1.2.3.4", 4⟩ = some none ∧
    GetMetadataForSingleIP (some emptyDataset) ⟨"1.2.3.4", 4⟩ = some none ∧
    GetMetadataForSingleIP none ⟨"1.2.3.4", 4⟩ =
      GetMetadataForSingleIP (some emptyDataset) ⟨"1.2.3.4", 4⟩ := by
  refine ⟨by decide, by decide, by decide⟩

/-- C5 (amended): before any dataset is published every lookup returns the
nil metadata pointer (`some none`); this is the same value returned when a
published dataset contains no matching range, so "not ready" is not
reported distinctly from NotFound. -/
theorem c5_nil_dataset_returns_nil :
    (∀ request : RequestData, GetMetadataForSingleIP none request = some none) ∧
    GetMetadataForSingleIP (some emptyDataset) ⟨"1.2.3.4", 4⟩ = some none := by
  exact ⟨fun _ => rfl, by decide⟩

/-! ## C6/C7 helper lemmas: possible error strings of the location loader -/

theorem checkAllCaps_error (s f e : String)
    (h : checkAllCaps s f = Except.error e) :
    e = "Corrupted Data: " ++ f ++ " should be all caps" := by
  unfold checkAllCaps at h
  split_ifs at h with hc
  all_goals first
    | (injection h with h; exact h.symm)
    | exact absurd h (by simp)

theorem checkAllCaps_ok (s f v : String) (h : checkAllCaps s f = Except.ok v) :
    s.toList.all (fun c => ('0' ≤ c && c ≤ '9') || ('A' ≤ c && c ≤ 'Z')) = true := by
  unfold checkAllCaps at h
  split_ifs at h with hc
  all_goals first
    | exact hc
    | exact absurd h (by simp)

theorem parseGeonameID_error (s e : String) (h : parseGeonameID s = Except.error e) :
    e = "Corrupted Data: GeonameID should be a number" := by
  unfold parseGeonameID at h
  split at h
  · exact absurd h (by simp)
  · split_ifs at h
    injection h with h
    exact h.symm

theorem parseMetroCode_error (s e : String) (h : parseMetroCode s = Except.error e) :
    e = "Corrupted Data: metrocode should be a number" := by
  unfold parseMetroCode at h
  split at h
  · exact absurd h (by simp)
  · split_ifs at h
    injection h with h
    exact h.symm

theorem parseLocRecord_error_ne (r : List String) (e : String)
    (h : parseLocRecord r = Except.error e) : e ≠ "Empty input data" := by
  unfold parseLocRecord at h
  split at h
  · injection h with h
    subst h
    decide
  · split at h
    · rename_i e1 heq
      injection h with h
      subst h
      rw [parseGeonameID_error _ _ heq]
      decide
    · split at h
      · rename_i e1 heq
        injection h with h
        subst h
        rw [checkAllCaps_error _ _ _ heq]
        decide
      · split at h
        · rename_i e1 heq
          injection h with h
          subst h
          rw [checkAllCaps_error _ _ _ heq]
          decide
        · split at h
          · injection h with h
            subst h
            decide
          · split at h
            · rename_i e1 heq
              injection h with h
              subst h
              rw [parseMetroCode_error _ _ heq]
              decide
            · exact absurd h (by simp)

theorem loadLocRecords_ne_empty : ∀ (rs : List (List String))
    (list : List LocationNode) (m : IdMap),
    loadLocRecords rs list m ≠ Except.error "Empty input data" := by
  intro rs
  induction rs with
  | nil => intro list m h; exact absurd h (by simp [loadLocRecords])
  | cons r rest ih =>
    intro list m h
    simp only [loadLocRecords] at h
    split at h
    · rename_i e heq
      injection h with h
      exact parseLocRecord_error_ne r e heq h
    · exact ih _ _ h

/-- C6 (amended): the Location Table Builder fails with `EmptyInput`
("Empty input data") exactly when the input has NO records at all — not
when it has a header and zero data records: a header-only input succeeds
with an empty table. -/
theorem c6_empty_iff_no_records (records : List (List String)) :
    LoadLocListGLite2 records = Except.error "Empty input data" ↔ records = [] := by
  cases records with
  | nil => simp [LoadLocListGLite2]
  | cons h rest =>
    simp only [LoadLocListGLite2]
    constructor
    · intro hh
      exact absurd hh (loadLocRecords_ne_empty rest [] [])
    · intro hh
      cases hh

/-- A plausible 13-column GeoLite2 locations header record. -/
def locHeader : List String :=
  ["geoname_id", "locale_code", "continent_code", "continent_name",
   "country_iso_code", "country_name", "subdivision_1_iso_code",
   "subdivision_1_name", "subdivision_2_iso_code", "subdivision_2_name",
   "city_name", "metro_code", "time_zone"]

/-- C6 counterexample: an input consisting of only a header record and zero
data records does NOT fail with `EmptyInput` — it succeeds with an empty
location table and an empty geoname index. -/
theorem c6_counterexample :
    LoadLocListGLite2 [locHeader] = Except.ok ([], []) := by decide

/-! ## C7: the code-field validation accepts digits -/

theorem parseLocRecord_ok_caps (r : List String) (node : LocationNode)
    (h : parseLocRecord r = Except.ok node) :
    (r.getD 2 "").toList.all
      (fun c => ('0' ≤ c && c ≤ '9') || ('A' ≤ c && c ≤ 'Z')) = true ∧
    (r.getD 4 "").toList.all
      (fun c => ('0' ≤ c && c ≤ '9') || ('A' ≤ c && c ≤ 'Z')) = true := by
  unfold parseLocRecord at h
  split at h
  · exact absurd h (by simp)
  · split at h
    · exact absurd h (by simp)
    · split at h
      · exact absurd h (by simp)
      · rename_i cont hcont
        split at h
        · exact absurd h (by simp)
        · rename_i ctry hctry
          exact ⟨checkAllCaps_ok _ _ _ hcont, checkAllCaps_ok _ _ _ hctry⟩

theorem loadLocRecords_ok_caps : ∀ (rs : List (List String))
    (list : List LocationNode) (m : IdMap) (out : List LocationNode × IdMap),
    loadLocRecords rs list m = Except.ok out →
    ∀ r ∈ rs,
      (r.getD 2 "").toList.all
        (fun c => ('0' ≤ c && c ≤ '9') || ('A' ≤ c && c ≤ 'Z')) = true ∧
      (r.getD 4 "").toList.all
        (fun c => ('0' ≤ c && c ≤ '9') || ('A' ≤ c && c ≤ 'Z')) = true := by
  intro rs
  induction rs with
  | nil => intro list m out _ r hr; cases hr
  | cons x xs ih =>
    intro list m out h r hr
    simp only [loadLocRecords] at h
    split at h
    · exact absurd h (by simp)
    · rename_i node hnode
      rcases List.mem_cons.mp hr with hx | hxs
      · subst hx
        exact parseLocRecord_ok_caps r node hnode
      · exact ih _ _ _ h r hxs

/-- C7 (amended): the continent/country code check `checkAllCaps` accepts
exactly the strings made of digits and uppercase ASCII letters (the
regular expression `^[0-9A-Z]*$`) — digits are accepted, not only
uppercase letters; consequently a successful location build implies every
data record's continent and country codes are digits-and-uppercase only
(so any record with a character outside `[0-9A-Z]`, e.g. a lower-case
letter, fails the build). -/
theorem c7_caps_check (header : List String) (rest : List (List String))
    (out : List LocationNode × IdMap)
    (hok : LoadLocListGLite2 (header :: rest) = Except.ok out) :
    ∀ r ∈ rest,
      (r.getD 2 "").toList.all
        (fun c => ('0' ≤ c && c ≤ '9') || ('A' ≤ c && c ≤ 'Z')) = true ∧
      (r.getD 4 "").toList.all
        (fun c => ('0' ≤ c && c ≤ '9') || ('A' ≤ c && c ≤ 'Z')) = true := by
  simp only [LoadLocListGLite2] at hok
  exact loadLocRecords_ok_caps rest [] [] out hok

/-- A location record whose continent code "A1" contains the digit '1' —
a character that is NOT an uppercase letter. -/
def locRecordA1 : List String :=
  ["7", "en", "A1", "x", "US", "United States", "", "", "", "",
   "CityX", "520", ""]

/-- C7 counterexample: the record's continent code "A1" is non-empty and
contains '1', which is not an uppercase letter, yet the Location Table
build SUCCEEDS (the `^[0-9A-Z]*$` check accepts digits), refuting "any
character that is not an uppercase letter fails the build". -/
theorem c7_counterexample :
    locRecordA1.getD 2 "" = "A1" ∧
    (¬ ('A' ≤ '1' ∧ '1' ≤ 'Z')) ∧
    LoadLocListGLite2 [locHeader, locRecordA1] =
      Except.ok ([⟨7, "A1", "US", "United States", 520, "CityX"⟩], [(7, 0)]) := by
  refine ⟨by decide, by decide, by decide⟩

theorem c7_witness :
    LoadLocListGLite2 [locHeader, locRecordA1] =
      Except.ok ([⟨7, "A1", "US", "United States", 520, "CityX"⟩], [(7, 0)]) ∧
    (locRecordA1 ∈ [locRecordA1] ∧
      ("A1".toList.all
        (fun c => ('0' ≤ c && c ≤ '9') || ('A' ≤ c && c ≤ 'Z')) = true ∧
       "US".toList.all
        (fun c => ('0' ≤ c && c ≤ '9') || ('A' ≤ c && c ≤ 'Z')) = true)) := by
  refine ⟨by decide, List.mem_singleton.mpr rfl, ?_⟩
  have h := c7_caps_check locHeader [locRecordA1]
    ([⟨7, "A1", "US", "United States", 520, "CityX"⟩], [(7, 0)])
    (by decide) locRecordA1 (List.mem_singleton.mpr rfl)
  exact h

/-! ## C4: geoname-lookup double miss leaves LocationIndex = 0 -/

/-- C4 (amended): a block record whose primary AND backup geoname lookups
both fail is still emitted (the record-level build step succeeds — the
misses are not fatal), but its location reference is the integer 0 — the
zero value returned by `lookupGeoId` on failure, which is a VALID index
(the first entry) into any non-empty location table, not a "none"
marker. -/
theorem c4_double_miss_index_zero (idMap : IdMap) (record : List String)
    (lowIp highIp : List Nat) (lat lon : ℚ) (e1 e2 : String)
    (hlen : record.length = 10)
    (hr : rangeCIDR (record.getD 0 "") = Except.ok (lowIp, highIp))
    (h1 : lookupGeoId (record.getD 1 "") idMap = Except.error e1)
    (h2 : lookupGeoId (record.getD 2 "") idMap = Except.error e2)
    (hlat : stringToFloat (record.getD 7 "") "Latitude" = Except.ok lat)
    (hlon : stringToFloat (record.getD 8 "") "Longitude" = Except.ok lon) :
    parseIPRecord idMap record =
      Except.ok ⟨lowIp, highIp, 0, record.getD 6 "", lat, lon⟩ := by
  unfold parseIPRecord
  have hcols : checkNumColumns record 10 = Except.ok () := by
    unfold checkNumColumns
    rw [if_neg (by simp [hlen])]
  rw [hcols, hr, h1, h2, hlat, hlon]

/-- A 10-column GeoLite2 blocks header record. -/
def blockHeader : List String :=
  ["network", "geoname_id", "registered_country_geoname_id",
   "represented_country_geoname_id", "is_anonymous_proxy",
   "is_satellite_provider", "postal_code", "latitude", "longitude",
   "accuracy_radius"]

/-- A block record whose primary ("999") and backup ("888") geoname ids are
both absent from the test geoname index. -/
def blockRecMiss : List String :=
  ["1.0.0.0/24", "999", "888", "", "", "", "10115", "", "", ""]

/-- Geoname index for the tests: ids 1 and 2 map to locations 0 and 1. -/
def idMap12 : IdMap := [(1, 0), (2, 1)]

/-- C4 counterexample: with both geoname lookups failing, the build still
emits the node (no abort) but its `LocationIndex` is 0 — the index of the
FIRST location-table entry, a valid location reference — not a "none"
marker (the code's "none" representation is a negative index, cf. the
`LocationIndex >= 0` test in `ConvertIPNodeToMetaData`). -/
theorem c4_counterexample :
    (∃ e, lookupGeoId "999" idMap12 = Except.error e) ∧
    (∃ e, lookupGeoId "888" idMap12 = Except.error e) ∧
    LoadIPListGLite2 [blockHeader, blockRecMiss] idMap12 =
      Except.ok [⟨v4MappedLead ++ [1, 0, 0, 0], v4MappedLead ++ [1, 0, 0, 255],
                  0, "10115", 0, 0⟩] ∧
    (0 : Int) ≤ 0 := by
  exact ⟨⟨"Corrupted Data: geonameId not found", by decide⟩,
         ⟨"Corrupted Data: geonameId not found", by decide⟩, by decide, by decide⟩

theorem c4_witness :
    blockRecMiss.length = 10 ∧
    rangeCIDR (blockRecMiss.getD 0 "") =
      Except.ok (v4MappedLead ++ [1, 0, 0, 0], v4MappedLead ++ [1, 0, 0, 255]) ∧
    lookupGeoId (blockRecMiss.getD 1 "") idMap12 =
      Except.error "Corrupted Data: geonameId not found" ∧
    lookupGeoId (blockRecMiss.getD 2 "") idMap12 =
      Except.error "Corrupted Data: geonameId not found" ∧
    stringToFloat (blockRecMiss.getD 7 "") "Latitude" = Except.ok 0 ∧
    stringToFloat (blockRecMiss.getD 8 "") "Longitude" = Except.ok 0 ∧
    parseIPRecord idMap12 blockRecMiss =
      Except.ok ⟨v4MappedLead ++ [1, 0, 0, 0], v4MappedLead ++ [1, 0, 0, 255],
                 0, blockRecMiss.getD 6 "", 0, 0⟩ := by
  refine ⟨by decide, by decide, by decide, by decide, by decide, by decide, ?_⟩
  exact c4_double_miss_index_zero idMap12 blockRecMiss
    (v4MappedLead ++ [1, 0, 0, 0]) (v4MappedLead ++ [1, 0, 0, 255]) 0 0
    "Corrupted Data: geonameId not found" "Corrupted Data: geonameId not found"
    (by decide) (by decide) (by decide) (by decide) (by decide) (by decide)

/-! ## C1: the nested two-block scenario yields two ranges, not three -/

/-- The C1 scenario blocks: a /8 parent followed by a nested /16 child. -/
def c1Blocks : List (List String) :=
  [blockHeader,
   ["10.0.0.0/8", "1", "", "", "", "", "", "", "", ""],
   ["10.1.0.0/16", "2", "", "", "", "", "", "", "", ""]]

/-- C1 counterexample: the two-block nested input produces exactly TWO
ranges, not three — the parent's tail (the claimed third range
10.2.0.0-maximum) is never emitted because the stack is not flushed at end
of input. -/
theorem c1_counterexample :
    (LoadIPListGLite2 c1Blocks idMap12).map List.length = Except.ok 2 := by
  decide

/-- C1 (amended): the input blocks ["10.0.0.0/8" → geoname A,
"10.1.0.0/16" → geoname B] produce exactly two resolved ranges:
10.0.0.0-10.0.255.255 annotated with A and 10.1.0.0-10.1.255.255 annotated
with B.  No third range is produced: open stack nodes are simply dropped
when the input ends, so the remainder of the parent block after the nested
child (10.2.0.0 onward) is absent from the index. -/
theorem c1_two_ranges :
    LoadIPListGLite2 c1Blocks idMap12 =
      Except.ok
        [⟨v4MappedLead ++ [10, 0, 0, 0], v4MappedLead ++ [10, 0, 255, 255],
          0, "", 0, 0⟩,
         ⟨v4MappedLead ++ [10, 1, 0, 0], v4MappedLead ++ [10, 1, 255, 255],
          1, "", 0, 0⟩] := by
  decide

/-! ## C2: the finished-index invariant -/

/-- `low ≤ high` under byte-wise unsigned comparison. -/
def nodeWF (n : IPNode) : Prop :=
  compareBytes n.IPAddressLow n.IPAddressHigh ≠ Ordering.gt

/-- Strict separation of two nodes: the first ends strictly below where the
second begins (disjoint and in ascending order). -/
def nodeSep (a b : IPNode) : Prop :=
  compareBytes a.IPAddressHigh b.IPAddressLow = Ordering.lt

/-- The CIDR bounds of a block record, when its CIDR field parses. -/
def boundsOf (record : List String) : Option (List Nat × List Nat) :=
  match rangeCIDR (record.getD 0 "") with
  | Except.ok p => some p
  | Except.error _ => none

/-- Strict separation of two parsed CIDR ranges. -/
def boundsSep (p q : List Nat × List Nat) : Prop :=
  compareBytes p.2 q.1 = Ordering.lt

theorem parseIPRecord_ok_bounds (idMap : IdMap) (record : List String)
    (node : IPNode) (h : parseIPRecord idMap record = Except.ok node) :
    rangeCIDR (record.getD 0 "") =
      Except.ok (node.IPAddressLow, node.IPAddressHigh) := by
  unfold parseIPRecord at h
  split at h
  · exact absurd h (by simp)
  · split at h
    · exact absurd h (by simp)
    · rename_i low high hrange
      split at h
      · split at h
        · exact absurd h (by simp)
        · split at h
          · exact absurd h (by simp)
          · injection h with h
            subst h
            exact hrange
      · split at h
        · split at h
          · exact absurd h (by simp)
          · split at h
            · exact absurd h (by simp)
            · injection h with h
              subst h
              exact hrange
        · split at h
          · exact absurd h (by simp)
          · split at h
            · exact absurd h (by simp)
            · injection h with h
              subst h
              exact hrange

theorem loadIP_sep_invariant : ∀ (rs : List (List String)) (idMap : IdMap)
    (stack list : List IPNode) (out : List IPNode),
    loadIPRecords idMap rs stack list = Except.ok out →
    ((stack = [] ∧ list = []) ∨
      (∃ prev, stack = [prev] ∧ list.getLast? = some prev)) →
    (∀ n ∈ list, nodeWF n) →
    List.Chain' nodeSep list →
    List.Chain' boundsSep
      (stack.map (fun n => (n.IPAddressLow, n.IPAddressHigh)) ++
        rs.filterMap boundsOf) →
    (∀ n ∈ out, nodeWF n) ∧ List.Chain' nodeSep out := by
  intro rs
  induction rs with
  | nil =>
    intro idMap stack list out h _hstate hwf hchain _hbounds
    simp only [loadIPRecords] at h
    injection h with h
    subst h
    exact ⟨hwf, hchain⟩
  | cons r rest ih =>
    intro idMap stack list out h hstate hwf hchain hbounds
    simp only [loadIPRecords] at h
    split at h
    · exact absurd h (by simp)
    · rename_i newNode hnode
      have hb := parseIPRecord_ok_bounds _ _ _ hnode
      have hbof : boundsOf r =
          some (newNode.IPAddressLow, newNode.IPAddressHigh) := by
        unfold boundsOf
        rw [hb]
      have hwfnew : nodeWF newNode := rangeCIDR_wf _ _ _ hb
      have hfm : (r :: rest).filterMap boundsOf =
          (newNode.IPAddressLow, newNode.IPAddressHigh) ::
            rest.filterMap boundsOf := by
        exact List.filterMap_cons_some hbof
      rcases hstate with ⟨hs, hl⟩ | ⟨prev, hs, hl⟩
      · subst hs
        subst hl
        have hp : processNode newNode [] [] = ([newNode], [newNode]) := rfl
        rw [hp] at h
        apply ih idMap [newNode] [newNode] out h
        · exact Or.inr ⟨newNode, rfl, rfl⟩
        · intro n hn
          have := List.mem_singleton.mp hn
          subst this
          exact hwfnew
        · exact List.chain'_singleton _
        · rw [hfm] at hbounds
          simpa using hbounds
      · subst hs
        rw [hfm] at hbounds
        simp only [List.map_cons, List.map_nil, List.cons_append,
          List.nil_append] at hbounds
        have hcc := List.chain'_cons.mp hbounds
        have hsep : compareBytes prev.IPAddressHigh newNode.IPAddressLow =
            Ordering.lt := hcc.1
        have hlt : lessThan prev.IPAddressHigh newNode.IPAddressLow = true := by
          unfold lessThan
          rw [hsep]
          rfl
        have hp : processNode newNode [prev] list =
            ([newNode], list ++ [newNode]) := by
          simp [processNode, closeLoop, hlt]
        rw [hp] at h
        apply ih idMap [newNode] (list ++ [newNode]) out h
        · exact Or.inr ⟨newNode, rfl, List.getLast?_concat _⟩
        · intro n hn
          rcases List.mem_append.mp hn with h1 | h2
          · exact hwf n h1
          · have := List.mem_singleton.mp h2
            subst this
            exact hwfnew
        · rw [List.chain'_append]
          refine ⟨hchain, List.chain'_singleton _, ?_⟩
          intro x hx y hy
          rw [hl] at hx
          have hx2 : prev = x := by
            simpa using hx
          have hy2 : newNode = y := by
            simpa using hy
          subst hx2
          subst hy2
          exact hsep
        · simpa using hcc.2

theorem chain'_nodeSep_head : ∀ (l : List IPNode) (a : IPNode),
    (∀ n ∈ l, nodeWF n) → List.Chain' nodeSep (a :: l) →
    ∀ b ∈ l, nodeSep a b := by
  intro l
  induction l with
  | nil =>
    intro a _ _ b hb
    cases hb
  | cons c l2 ih =>
    intro a hwf hch b hb
    have hac : nodeSep a c := (List.chain'_cons.mp hch).1
    rcases List.mem_cons.mp hb with hbc | hb2
    · subst hbc
      exact hac
    · have hcb : nodeSep c b :=
        ih c (fun n hn => hwf n (List.mem_cons_of_mem _ hn))
          (List.chain'_cons.mp hch).2 b hb2
      have hwc : nodeWF c := hwf c (List.mem_cons_self _ _)
      exact compareBytes_lt_trans
        (compareBytes_lt_of_lt_of_ne_gt hac hwc) hcb

theorem chain'_nodeSep_pairwise : ∀ (l : List IPNode),
    (∀ n ∈ l, nodeWF n) → List.Chain' nodeSep l →
    List.Pairwise nodeSep l := by
  intro l
  induction l with
  | nil =>
    intro _ _
    exact List.Pairwise.nil
  | cons a l2 ih =>
    intro hwf hch
    rw [List.pairwise_cons]
    constructor
    · exact chain'_nodeSep_head l2 a
        (fun n hn => hwf n (List.mem_cons_of_mem _ hn)) hch
    · exact ih (fun n hn => hwf n (List.mem_cons_of_mem _ hn))
        (List.Chain'.tail hch)

theorem pairwise_low_lt : ∀ (l : List IPNode),
    (∀ n ∈ l, nodeWF n) → List.Pairwise nodeSep l →
    List.Pairwise
      (fun a b => compareBytes a.IPAddressLow b.IPAddressLow = Ordering.lt) l := by
  intro l
  induction l with
  | nil =>
    intro _ _
    exact List.Pairwise.nil
  | cons a l2 ih =>
    intro hwf hp
    rw [List.pairwise_cons] at hp ⊢
    constructor
    · intro b hb
      exact compareBytes_lt_of_ne_gt_of_lt (hwf a (List.mem_cons_self _ _))
        (hp.1 b hb)
    · exact ih (fun n hn => hwf n (List.mem_cons_of_mem _ hn)) hp.2

/-- C2 (amended): for every input whose successive data records' parsed
CIDR ranges are STRICTLY SEPARATED (each record's high bound byte-wise
strictly below the next record's low bound — in particular no nested child
blocks), the list built by `LoadIPListGLite2` satisfies the finished-index
invariant: every node has `low ≤ high` under unsigned big-endian byte-wise
comparison, any two distinct nodes are disjoint (each earlier node ends
strictly below each later node's start), and the list is strictly
ascending by `low` with no duplicate `low` values.  (The unrestricted
claim is refuted by `c2_counterexample`: a nested child block sharing its
parent's low produces an inverted node and a duplicated low.) -/
theorem c2_invariant_separated (records : List (List String)) (idMap : IdMap)
    (out : List IPNode)
    (hsep : List.Chain' boundsSep ((records.drop 1).filterMap boundsOf))
    (hok : LoadIPListGLite2 records idMap = Except.ok out) :
    (∀ n ∈ out, compareBytes n.IPAddressLow n.IPAddressHigh ≠ Ordering.gt) ∧
    List.Pairwise
      (fun a b => compareBytes a.IPAddressHigh b.IPAddressLow = Ordering.lt) out ∧
    List.Pairwise
      (fun a b => compareBytes a.IPAddressLow b.IPAddressLow = Ordering.lt) out := by
  cases records with
  | nil => exact absurd hok (by simp [LoadIPListGLite2])
  | cons hd rest =>
    simp only [LoadIPListGLite2] at hok
    have hmain := loadIP_sep_invariant rest idMap [] [] out hok
      (Or.inl ⟨rfl, rfl⟩) (by intro n hn; cases hn) (List.chain'_nil)
      (by simpa using hsep)
    have hpair := chain'_nodeSep_pairwise out hmain.1 hmain.2
    exact ⟨hmain.1, hpair, pairwise_low_lt out hmain.1 hpair⟩

/-- The C2 counterexample blocks: a /8 parent followed by a nested /16
child SHARING the parent's low address (legitimately sorted: the /8
precedes the /16 in CIDR order, and the child immediately follows its
enclosing parent). -/
def c2Blocks : List (List String) :=
  [blockHeader,
   ["10.0.0.0/8", "1", "", "", "", "", "", "", "", ""],
   ["10.0.0.0/16", "2", "", "", "", "", "", "", "", ""]]

/-- C2 counterexample: for a pre-sorted input with a nested child block
starting at its parent's own low address, the builder rewrites the
parent's emitted high to `low - 1` = 9.255.255.255 < its low, producing a
node with `low > high` (byte-wise), and the two emitted nodes share the
same `low` — refuting all three parts of the claimed invariant. -/
theorem c2_counterexample :
    LoadIPListGLite2 c2Blocks idMap12 =
      Except.ok
        [⟨v4MappedLead ++ [10, 0, 0, 0], v4MappedLead ++ [9, 255, 255, 255],
          0, "", 0, 0⟩,
         ⟨v4MappedLead ++ [10, 0, 0, 0], v4MappedLead ++ [10, 0, 255, 255],
          1, "", 0, 0⟩] ∧
    compareBytes (v4MappedLead ++ [10, 0, 0, 0])
      (v4MappedLead ++ [9, 255, 255, 255]) = Ordering.gt := by
  exact ⟨by decide, by decide⟩

/-- Two strictly separated /24 blocks exercising `c2_invariant_separated`. -/
def sepBlocks : List (List String) :=
  [blockHeader,
   ["1.0.0.0/24", "1", "", "", "", "", "", "", "", ""],
   ["2.0.0.0/24", "2", "", "", "", "", "", "", "", ""]]

/-- The index built from `sepBlocks`. -/
def sepOut : List IPNode :=
  [⟨v4MappedLead ++ [1, 0, 0, 0], v4MappedLead ++ [1, 0, 0, 255], 0, "", 0, 0⟩,
   ⟨v4MappedLead ++ [2, 0, 0, 0], v4MappedLead ++ [2, 0, 0, 255], 1, "", 0, 0⟩]

theorem c2_witness :
    List.Chain' boundsSep ((sepBlocks.drop 1).filterMap boundsOf) ∧
    LoadIPListGLite2 sepBlocks idMap12 = Except.ok sepOut ∧
    ((∀ n ∈ sepOut, compareBytes n.IPAddressLow n.IPAddressHigh ≠ Ordering.gt) ∧
     List.Pairwise
       (fun a b => compareBytes a.IPAddressHigh b.IPAddressLow = Ordering.lt)
       sepOut ∧
     List.Pairwise
       (fun a b => compareBytes a.IPAddressLow b.IPAddressLow = Ordering.lt)
       sepOut) := by
  have hfm : (sepBlocks.drop 1).filterMap boundsOf =
      [(v4MappedLead ++ [1, 0, 0, 0], v4MappedLead ++ [1, 0, 0, 255]),
       (v4MappedLead ++ [2, 0, 0, 0], v4MappedLead ++ [2, 0, 0, 255])] := by
    decide
  have hchain : List.Chain' boundsSep ((sepBlocks.drop 1).filterMap boundsOf) := by
    rw [hfm]
    exact List.chain'_pair.mpr (show compareBytes _ _ = Ordering.lt by decide)
  exact ⟨hchain, by decide,
    c2_invariant_separated sepBlocks idMap12 sepOut hchain (by decide)⟩

end AnnotationService
